import Mathlib

/-!
Shallow embedding of the hybrid file-transfer protocol of this repository:
the `FileTransferManager` (fileTransfer.js), its embedded web-worker code,
the `NetworkManager` TCP/UDP send paths (networking.js) and the backend
worker pools (threading.js / thread-pool.js).  JS `Map`/`Set` objects are
modelled as insertion-ordered association lists, byte payloads as `List Nat`,
and timers as explicit state plus explicit fire events.
-/

namespace ChatFT

abbrev Byte := Nat
abbrev Bytes := List Byte

/-- `const CHUNK_SIZE = 65536` (fileTransfer.js line 5). -/
def CHUNK_SIZE : Nat := 65536

/-- `const MAX_RETRY_COUNT = 3` (fileTransfer.js line 6). -/
def MAX_RETRY_COUNT : Nat := 3

/-- `const RETRY_TIMEOUT = 3000` (fileTransfer.js line 7). -/
def RETRY_TIMEOUT : Nat := 3000

/-- `Math.ceil(file.size / CHUNK_SIZE)` (worker `processFile`, line 72);
on naturals the ceiling of the division. -/
def totalChunksOf (fileSize : Nat) : Nat := (fileSize + CHUNK_SIZE - 1) / CHUNK_SIZE

/-- `file.slice(start, end)` on a byte list: the bytes in `[start, stop)`. -/
def fileSlice (file : Bytes) (start stop : Nat) : Bytes :=
  (file.drop start).take (stop - start)

/-- One chunk as read by the worker's `readNextChunk` (lines 159-164):
`start = chunkIndex * CHUNK_SIZE`, `end = Math.min(start + CHUNK_SIZE, file.size)`,
`chunk = file.slice(start, end)`. -/
def readChunk (file : Bytes) (chunkIndex : Nat) : Bytes :=
  fileSlice file (chunkIndex * CHUNK_SIZE)
    (min (chunkIndex * CHUNK_SIZE + CHUNK_SIZE) file.length)

theorem readChunk_eq_drop_take (file : Bytes) (i : Nat) :
    readChunk file i = (file.drop (i * CHUNK_SIZE)).take CHUNK_SIZE := by
  unfold readChunk fileSlice
  rcases Nat.le_total (i * CHUNK_SIZE + CHUNK_SIZE) file.length with h | h
  · rw [min_eq_left h]
    congr 1
    omega
  · rw [min_eq_right h]
    have hlen : (file.drop (i * CHUNK_SIZE)).length = file.length - i * CHUNK_SIZE := by
      simp
    rw [List.take_of_length_le (by omega), List.take_of_length_le (by omega)]

/-- Splitting a list into ceiling-many `C`-slices and concatenating them in
index order gives back the list (auxiliary, fuel on the length). -/
theorem join_slices (C : Nat) (hC : 0 < C) :
    ∀ (n : Nat) (l : Bytes), l.length ≤ n →
      ((List.range ((l.length + C - 1) / C)).map
        (fun i => (l.drop (i * C)).take C)).flatten = l := by
  intro n
  induction n with
  | zero =>
    intro l hl
    have hnil : l = [] := List.eq_nil_of_length_eq_zero (Nat.le_zero.mp hl)
    subst hnil
    have h0 : (List.length ([] : Bytes) + C - 1) / C = 0 := by
      simp only [List.length_nil]
      exact Nat.div_eq_of_lt (by omega)
    rw [h0]
    simp
  | succ n ih =>
    intro l hl
    by_cases h0 : l.length = 0
    · have hnil : l = [] := List.eq_nil_of_length_eq_zero h0
      subst hnil
      have hz : (List.length ([] : Bytes) + C - 1) / C = 0 := by
        simp only [List.length_nil]
        exact Nat.div_eq_of_lt (by omega)
      rw [hz]
      simp
    · have hpos : 0 < l.length := Nat.pos_of_ne_zero h0
      by_cases hlen : l.length ≤ C
      · have h1 : (l.length + C - 1) / C = 1 :=
          Nat.div_eq_of_lt_le (by omega) (by omega)
        rw [h1]
        have hr1 : List.range 1 = [0] := rfl
        rw [hr1]
        simp only [List.map_cons, List.map_nil, Nat.zero_mul,
          List.drop_zero, List.flatten_cons, List.flatten_nil, List.append_nil]
        exact List.take_of_length_le hlen
      · have hgt : C < l.length := Nat.lt_of_not_le hlen
        have harith : l.length + C - 1 = ((l.length - C) + C - 1) + C := by omega
        have hdiv : (l.length + C - 1) / C = ((l.length - C) + C - 1) / C + 1 := by
          rw [harith, Nat.add_div_right _ hC]
        rw [hdiv, List.range_succ_eq_map]
        simp only [List.map_cons, List.map_map, List.flatten_cons, Nat.zero_mul,
          List.drop_zero]
        have hdropLen : (l.drop C).length = l.length - C := by simp
        have htail := ih (l.drop C) (by omega)
        rw [hdropLen] at htail
        have hfun : ((fun i => (l.drop (i * C)).take C) ∘ Nat.succ)
            = fun i => ((l.drop C).drop (i * C)).take C := by
          funext i
          simp only [Function.comp]
          rw [List.drop_drop, Nat.succ_mul, Nat.add_comm (i * C) C]
        rw [hfun, htail]
        exact List.take_append_drop C l

theorem flatten_readChunks (file : Bytes) :
    ((List.range (totalChunksOf file.length)).map (readChunk file)).flatten = file := by
  have h := join_slices CHUNK_SIZE (by decide) file.length file (Nat.le_refl _)
  have hfun : (fun i => (file.drop (i * CHUNK_SIZE)).take CHUNK_SIZE) = readChunk file := by
    funext i
    exact (readChunk_eq_drop_take file i).symm
  rw [hfun] at h
  exact h

/-! ## JS `Map` and `Set` objects

`Map` is modelled as an insertion-ordered association list: `set` updates an
existing key in place, otherwise appends; `size` is the number of entries.
`Set` is an insertion-ordered duplicate-free list. -/

def setEntries {κ α : Type} [DecidableEq κ] : List (κ × α) → κ → α → List (κ × α)
  | [], k, v => [(k, v)]
  | (k', v') :: rest, k, v =>
    if k' = k then (k, v) :: rest else (k', v') :: setEntries rest k v

def getEntries {κ α : Type} [DecidableEq κ] : List (κ × α) → κ → Option α
  | [], _ => none
  | (k', v') :: rest, k => if k' = k then some v' else getEntries rest k

structure JSMap (κ α : Type) where
  entries : List (κ × α)
deriving DecidableEq

def JSMap.empty {κ α : Type} : JSMap κ α := ⟨[]⟩

def JSMap.set {κ α : Type} [DecidableEq κ] (m : JSMap κ α) (k : κ) (v : α) : JSMap κ α :=
  ⟨setEntries m.entries k v⟩

def JSMap.get {κ α : Type} [DecidableEq κ] (m : JSMap κ α) (k : κ) : Option α :=
  getEntries m.entries k

def JSMap.erase {κ α : Type} [DecidableEq κ] (m : JSMap κ α) (k : κ) : JSMap κ α :=
  ⟨m.entries.filter (fun p => p.1 ≠ k)⟩

def JSMap.size {κ α : Type} (m : JSMap κ α) : Nat := m.entries.length

structure JSSet (κ : Type) where
  elems : List κ
deriving DecidableEq

def JSSet.empty {κ : Type} : JSSet κ := ⟨[]⟩

def JSSet.add {κ : Type} [DecidableEq κ] (s : JSSet κ) (k : κ) : JSSet κ :=
  if k ∈ s.elems then s else ⟨s.elems ++ [k]⟩

def JSSet.has {κ : Type} [DecidableEq κ] (s : JSSet κ) (k : κ) : Bool :=
  decide (k ∈ s.elems)

def JSSet.remove {κ : Type} [DecidableEq κ] (s : JSSet κ) (k : κ) : JSSet κ :=
  ⟨s.elems.filter (fun x => x ≠ k)⟩

def JSSet.size {κ : Type} (s : JSSet κ) : Nat := s.elems.length

/-- `a.elems` is contained in `b.elems` (Boolean, for decidable statements). -/
def JSSet.subsetOf {κ : Type} [DecidableEq κ] (a b : JSSet κ) : Bool :=
  a.elems.all (fun x => decide (x ∈ b.elems))

theorem getEntries_setEntries_self {κ α : Type} [DecidableEq κ]
    (es : List (κ × α)) (k : κ) (v : α) :
    getEntries (setEntries es k v) k = some v := by
  induction es with
  | nil => simp [setEntries, getEntries]
  | cons p rest ih =>
    by_cases h : p.1 = k
    · simp [setEntries, h, getEntries]
    · simp [setEntries, h, getEntries, ih]

theorem JSMap.get_set_self {κ α : Type} [DecidableEq κ] (m : JSMap κ α) (k : κ) (v : α) :
    (m.set k v).get k = some v :=
  getEntries_setEntries_self m.entries k v

theorem getEntries_setEntries_ne {κ α : Type} [DecidableEq κ]
    (es : List (κ × α)) (k k' : κ) (v : α) (hne : k' ≠ k) :
    getEntries (setEntries es k v) k' = getEntries es k' := by
  have hkk : ¬k = k' := fun h => hne h.symm
  induction es with
  | nil => simp [setEntries, getEntries, hkk]
  | cons p rest ih =>
    by_cases h : p.1 = k
    · subst h
      have hp : ¬p.1 = k' := hkk
      simp [setEntries, getEntries, hp]
    · by_cases h2 : p.1 = k'
      · simp [setEntries, h, getEntries, h2, hne]
      · simp [setEntries, h, getEntries, h2, ih]

theorem JSMap.get_set_ne {κ α : Type} [DecidableEq κ] (m : JSMap κ α) (k k' : κ) (v : α)
    (hne : k' ≠ k) : (m.set k v).get k' = m.get k' :=
  getEntries_setEntries_ne m.entries k k' v hne

/-- Setting a key that is not present appends the entry (JS `Map.set`). -/
theorem setEntries_append_of_not_mem {κ α : Type} [DecidableEq κ]
    (es : List (κ × α)) (k : κ) (v : α) (h : ∀ p ∈ es, p.1 ≠ k) :
    setEntries es k v = es ++ [(k, v)] := by
  induction es with
  | nil => simp [setEntries]
  | cons p rest ih =>
    have hp : p.1 ≠ k := h p (List.mem_cons_self p rest)
    simp only [setEntries, hp, if_false]
    rw [ih (fun q hq => h q (List.mem_cons_of_mem p hq))]
    simp

/-! ## Data model of the `FileTransferManager` (fileTransfer.js) -/

/-- The status strings stored in `transfer.status`. -/
inductive Status where
  | processing | sending | receiving | complete | error | cancelled | aborted
deriving DecidableEq

/-- The metadata object built by the worker's `processFile` (lines 90-98). -/
structure Metadata where
  transferId : String
  fileId : String
  fileName : String
  fileType : String
  fileSize : Nat
  totalChunks : Nat
  timestamp : Nat
deriving DecidableEq

/-- The `metadata: {fileName, totalChunks}` hint attached to chunk messages
(`sendFileChunk`, lines 363-366). -/
structure ChunkMeta where
  fileName : String
  totalChunks : Nat
deriving DecidableEq

/-- One value of `transfer.retries` (`sendFileChunk`, lines 375-378):
`count` is the attempt counter; `timeoutSet` models the truthiness of the
`.timeout` property (a JS `Timeout` handle is truthy once assigned, even
after it fired). -/
structure RetryEntry where
  count : Nat
  timeoutSet : Bool
deriving DecidableEq

/-- One entry of `this.transfers`.  The JS record is a dynamic object; fields
not assigned on a given side are `undefined`, modelled by their defaults.
`chunks` is `none`: no code path ever assigns a `chunks` property to the
record (`sendFileMetadata`, lines 336-343, stores only the metadata spread
plus `status`, `receiverId`, `sentChunks`, `acknowledgedChunks`, `retries`),
so `transfer.chunks` is `undefined` in JS.  `pendingTimers` models the
scheduler state: the set of chunk indices with an armed (not yet fired, not
cleared) retry `setTimeout`. -/
structure TransferRecord where
  transferId : String := ""
  fileId : String := ""
  fileName : String := ""
  fileType : String := ""
  fileSize : Nat := 0
  totalChunks : Nat := 0
  timestamp : Nat := 0
  status : Status
  receiverId : String := ""
  senderId : String := ""
  sentChunks : JSSet Nat := JSSet.empty
  acknowledgedChunks : JSSet Nat := JSSet.empty
  retries : JSMap Nat RetryEntry := JSMap.empty
  receivedChunks : JSMap Nat Bytes := JSMap.empty
  missingChunks : JSSet Nat := JSSet.empty
  chunks : Option (JSMap Nat Bytes) := none
  pendingTimers : JSSet Nat := JSSet.empty
deriving DecidableEq

/-- Wire messages sent through `networkManager` (fileTransfer.js). -/
inductive Message where
  | fileMetadata (transferId : String) (metadata : Metadata) (receiverId : String)
  | fileChunk (transferId : String) (chunkIndex : Nat) (chunk : Bytes)
      (isLast : Bool) (meta : ChunkMeta) (receiverId : String)
  | fileMetadataAck (transferId : String) (status : String) (receiverId : String)
  | fileChunkAck (transferId : String) (chunkIndex : Nat) (status : String)
      (receiverId : String)
  | fileTransferCancel (transferId : String) (receiverId : String)
deriving DecidableEq

/-- Events delivered through `emitEvent` to the application listeners. -/
inductive FTEvent where
  | progress (transferId : String) (progress : Nat)
  | complete (transferId : String) (success : Bool)
  | error (transferId : String) (errorMsg : String)
  | receiveProgress (transferId : String) (progress : Nat)
  | incomingFile (transferId fileName : String) (fileSize : Nat)
      (fileType senderId : String)
  | fileReceived (transferId : String) (fileName fileType : Option String)
      (fileSize : Option Nat)
  | cancelled (transferId : String)
  | aborted (transferId : String)
deriving DecidableEq

/-- Commands posted from the main thread to the transfer worker. -/
inductive WorkerCmd where
  | processChunk (transferId : String) (chunk : Bytes) (chunkIndex : Nat)
      (meta : ChunkMeta)
  | abortTransfer (transferId : String)
deriving DecidableEq

/-- Messages posted by the transfer worker back to the main thread. -/
inductive WorkerOut where
  | sendMetadata (transferId : String) (metadata : Metadata) (receiverId : String)
  | sendChunk (transferId : String) (chunkIndex : Nat) (chunk : Bytes)
      (isLast : Bool) (receiverId : String)
  | progressUpdate (transferId : String) (progress : Nat)
  | transferComplete (transferId : String) (success : Bool)
  | transferError (transferId : String) (errorMsg : String)
  | chunkReceived (transferId : String) (chunkIndex totalChunks progress : Nat)
  | receiveComplete (transferId : String) (meta : ChunkMeta)
  | transferAborted (transferId : String)
deriving DecidableEq

/-- Observable side effects of the main-thread handlers. -/
inductive Effect where
  | tcpSend (m : Message)
  | udpSend (m : Message)
  | emitEvent (e : FTEvent)
  | workerPost (c : WorkerCmd)
  | scheduleDelete (transferId : String)
deriving DecidableEq

/-- The mutable state of the `FileTransferManager` singleton. -/
structure Manager where
  transfers : JSMap String TransferRecord
deriving DecidableEq

def Manager.empty : Manager := ⟨JSMap.empty⟩

/-- `NetworkManager.sendTcpMessage` (networking.js lines 187-199): if not
connected it warns and returns `false` without sending; otherwise it emits
the message and returns `true`. -/
def sendTcpMessage (connected : Bool) (m : Message) : Bool × List Effect :=
  if connected then (true, [Effect.tcpSend m]) else (false, [])

/-- `NetworkManager.sendUdpMessage` (networking.js lines 176-184). -/
def sendUdpMessage (connected : Bool) (m : Message) : Bool × List Effect :=
  if connected then (true, [Effect.udpSend m]) else (false, [])

/-! ## Main-thread handlers of `FileTransferManager` -/

/-- `sendFileMetadata` (lines 327-344): sends the metadata over TCP (the
Boolean result of `sendTcpMessage` is ignored, exactly as in the source) and
stores a fresh record with `status: 'sending'`. -/
def sendFileMetadata (connected : Bool) (st : Manager) (transferId : String)
    (metadata : Metadata) (receiverId : String) : Manager × List Effect :=
  let sendRes := sendTcpMessage connected (Message.fileMetadata transferId metadata receiverId)
  let r : TransferRecord := {
    transferId := metadata.transferId
    fileId := metadata.fileId
    fileName := metadata.fileName
    fileType := metadata.fileType
    fileSize := metadata.fileSize
    totalChunks := metadata.totalChunks
    timestamp := metadata.timestamp
    status := Status.sending
    receiverId := receiverId
    sentChunks := JSSet.empty
    acknowledgedChunks := JSSet.empty
    retries := JSMap.empty }
  (⟨st.transfers.set transferId r⟩, sendRes.2)

/-- `sendFileChunk` (lines 349-379): no-op unless the record exists with
status `'sending'`; marks the index sent, sends the chunk over UDP, and arms
a retry timer with attempt count 0. -/
def sendFileChunk (connected : Bool) (st : Manager) (transferId : String)
    (chunkIndex : Nat) (chunk : Bytes) (isLast : Bool) (receiverId : String) :
    Manager × List Effect :=
  match st.transfers.get transferId with
  | none => (st, [])
  | some t =>
    if t.status ≠ Status.sending then (st, [])
    else
      let t := { t with sentChunks := t.sentChunks.add chunkIndex }
      let sendRes := sendUdpMessage connected
        (Message.fileChunk transferId chunkIndex chunk isLast
          ⟨t.fileName, t.totalChunks⟩ receiverId)
      let t := { t with
        retries := t.retries.set chunkIndex ⟨0, true⟩
        pendingTimers := t.pendingTimers.add chunkIndex }
      (⟨st.transfers.set transferId t⟩, sendRes.2)

/-- `retryChunk` (lines 384-437).  The third component is `some msg` when the
JS code throws: both resend branches read `transfer.chunks[chunkIndex]`, and
the record has no `chunks` property (see `TransferRecord.chunks`), so the
access raises a `TypeError` after the attempt counter was already
incremented.  State changes made before the throw are kept. -/
def retryChunk (connected : Bool) (st : Manager) (transferId : String)
    (chunkIndex : Nat) (receiverId : String) :
    Manager × List Effect × Option String :=
  match st.transfers.get transferId with
  | none => (st, [], none)
  | some t =>
    if t.status ≠ Status.sending then (st, [], none)
    else
      match t.retries.get chunkIndex with
      | none => (st, [], none)
      | some retryInfo =>
        if t.acknowledgedChunks.has chunkIndex then (st, [], none)
        else
          let retryInfo := { retryInfo with count := retryInfo.count + 1 }
          let t := { t with retries := t.retries.set chunkIndex retryInfo }
          let st : Manager := ⟨st.transfers.set transferId t⟩
          if retryInfo.count > MAX_RETRY_COUNT then
            match t.chunks with
            | none => (st, [], some "TypeError: transfer.chunks is undefined")
            | some cm =>
              let sendRes := sendTcpMessage connected
                (Message.fileChunk transferId chunkIndex
                  ((cm.get chunkIndex).getD []) (chunkIndex == t.totalChunks - 1)
                  ⟨t.fileName, t.totalChunks⟩ receiverId)
              (st, sendRes.2, none)
          else
            match t.chunks with
            | none => (st, [], some "TypeError: transfer.chunks is undefined")
            | some cm =>
              let sendRes := sendUdpMessage connected
                (Message.fileChunk transferId chunkIndex
                  ((cm.get chunkIndex).getD []) (chunkIndex == t.totalChunks - 1)
                  ⟨t.fileName, t.totalChunks⟩ receiverId)
              let t := { t with
                retries := t.retries.set chunkIndex { retryInfo with timeoutSet := true }
                pendingTimers := t.pendingTimers.add chunkIndex }
              (⟨st.transfers.set transferId t⟩, sendRes.2, none)

/-- A retry timer firing for `chunkIndex`: the armed `setTimeout` is spent
(removed from `pendingTimers`) and its callback `retryChunk` runs. -/
def fireRetryTimer (connected : Bool) (st : Manager) (transferId : String)
    (chunkIndex : Nat) (receiverId : String) :
    Manager × List Effect × Option String :=
  let st : Manager :=
    match st.transfers.get transferId with
    | none => st
    | some t =>
      ⟨st.transfers.set transferId
        { t with pendingTimers := t.pendingTimers.remove chunkIndex }⟩
  retryChunk connected st transferId chunkIndex receiverId

/-- The record stored by `handleIncomingFileMetadata` (lines 446-452):
`{...metadata, status: 'receiving', senderId, receivedChunks: new Map(),
missingChunks: new Set()}`. -/
def freshReceivingRecord (metadata : Metadata) (senderId : String) :
    TransferRecord := {
  transferId := metadata.transferId
  fileId := metadata.fileId
  fileName := metadata.fileName
  fileType := metadata.fileType
  fileSize := metadata.fileSize
  totalChunks := metadata.totalChunks
  timestamp := metadata.timestamp
  status := Status.receiving
  senderId := senderId
  receivedChunks := JSMap.empty
  missingChunks := JSSet.empty }

/-- `handleIncomingFileMetadata` (lines 442-470): unconditionally stores a
fresh receiving record (replacing any existing record under the same id),
emits `incoming-file` and acknowledges the metadata over TCP. -/
def handleIncomingFileMetadata (connected : Bool) (st : Manager)
    (metadata : Metadata) (senderId : String) : Manager × List Effect :=
  let transferId := metadata.transferId
  let r := freshReceivingRecord metadata senderId
  let ackRes := sendTcpMessage connected
    (Message.fileMetadataAck transferId "ready" senderId)
  (⟨st.transfers.set transferId r⟩,
    [Effect.emitEvent (FTEvent.incomingFile transferId metadata.fileName
      metadata.fileSize metadata.fileType senderId)] ++ ackRes.2)

/-- `assembleFile` (lines 542-557): no-op unless the record exists with
status `'receiving'`; sets status `'complete'` and emits `file-received`
with the record's own metadata.  (No byte concatenation happens in the
source; the chunks stay in `receivedChunks`.) -/
def assembleFile (st : Manager) (transferId : String) : Manager × List Effect :=
  match st.transfers.get transferId with
  | none => (st, [])
  | some t =>
    if t.status ≠ Status.receiving then (st, [])
    else
      let t := { t with status := Status.complete }
      (⟨st.transfers.set transferId t⟩,
        [Effect.emitEvent (FTEvent.fileReceived transferId (some t.fileName)
          (some t.fileType) (some t.fileSize))])

/-- `handleIncomingFileChunk` (lines 475-508): no-op unless the record exists
with status `'receiving'`; stores the chunk, posts `process-chunk` to the
worker, acknowledges over TCP, and runs `assembleFile` when the number of
stored chunks equals `totalChunks`. -/
def handleIncomingFileChunk (connected : Bool) (st : Manager)
    (transferId : String) (chunkIndex : Nat) (chunk : Bytes)
    (meta : ChunkMeta) : Manager × List Effect :=
  match st.transfers.get transferId with
  | none => (st, [])
  | some t =>
    if t.status ≠ Status.receiving then (st, [])
    else
      let t := { t with receivedChunks := t.receivedChunks.set chunkIndex chunk }
      let workerEff := [Effect.workerPost
        (WorkerCmd.processChunk transferId chunk chunkIndex meta)]
      let ackRes := sendTcpMessage connected
        (Message.fileChunkAck transferId chunkIndex "received" t.senderId)
      let st : Manager := ⟨st.transfers.set transferId t⟩
      if t.receivedChunks.size = t.totalChunks then
        let asm := assembleFile st transferId
        (asm.1, workerEff ++ ackRes.2 ++ asm.2)
      else
        (st, workerEff ++ ackRes.2)

/-- `handleChunkAcknowledgment` (lines 513-537): no-op unless the record
exists with status `'sending'` and the message status is `"received"`; adds
the index to `acknowledgedChunks` unconditionally, clears that index's retry
timer, and completes the transfer when the acknowledged-set size equals
`totalChunks`. -/
def handleChunkAcknowledgment (st : Manager) (transferId : String)
    (chunkIndex : Nat) (ackStatus : String) : Manager × List Effect :=
  match st.transfers.get transferId with
  | none => (st, [])
  | some t =>
    if t.status ≠ Status.sending then (st, [])
    else if ackStatus ≠ "received" then (st, [])
    else
      let t := { t with acknowledgedChunks := t.acknowledgedChunks.add chunkIndex }
      let t :=
        match t.retries.get chunkIndex with
        | some retryInfo =>
          if retryInfo.timeoutSet then
            { t with
              retries := t.retries.erase chunkIndex
              pendingTimers := t.pendingTimers.remove chunkIndex }
          else t
        | none => t
      if t.acknowledgedChunks.size = t.totalChunks then
        let t := { t with status := Status.complete }
        (⟨st.transfers.set transferId t⟩,
          [Effect.emitEvent (FTEvent.complete transferId true)])
      else
        (⟨st.transfers.set transferId t⟩, [])

/-- `completeFileReceive` (lines 562-574): no-op only when the record is
missing; otherwise sets status `'complete'` (whatever the current status)
and emits `file-received` from the chunk-message metadata hint, whose
`fileType`/`fileSize` properties do not exist (`undefined`). -/
def completeFileReceive (st : Manager) (transferId : String)
    (meta : ChunkMeta) : Manager × List Effect :=
  match st.transfers.get transferId with
  | none => (st, [])
  | some t =>
    let t := { t with status := Status.complete }
    (⟨st.transfers.set transferId t⟩,
      [Effect.emitEvent (FTEvent.fileReceived transferId (some meta.fileName)
        none none)])

/-- `cancelTransfer` (lines 579-621): no-op only when the record is missing;
a `'sending'` record gets its timers cleared and the peer notified, a
`'receiving'` record notifies the sender; in every case the status is set to
`'cancelled'`, a `cancelled` event is emitted, an abort is posted to the
worker and the record's deletion is scheduled. -/
def cancelTransfer (connected : Bool) (st : Manager) (transferId : String) :
    Manager × List Effect :=
  match st.transfers.get transferId with
  | none => (st, [])
  | some t =>
    let cleanup :=
      if t.status = Status.sending then
        let t := { t with pendingTimers := JSSet.empty }
        let sendRes := sendTcpMessage connected
          (Message.fileTransferCancel transferId t.receiverId)
        (t, sendRes.2)
      else if t.status = Status.receiving then
        let sendRes := sendTcpMessage connected
          (Message.fileTransferCancel transferId t.senderId)
        (t, sendRes.2)
      else (t, [])
    let t := { cleanup.1 with status := Status.cancelled }
    (⟨st.transfers.set transferId t⟩,
      cleanup.2 ++ [Effect.workerPost (WorkerCmd.abortTransfer transferId),
        Effect.emitEvent (FTEvent.cancelled transferId),
        Effect.scheduleDelete transferId])

/-! ## The transfer worker (blob code, fileTransfer.js lines 48-205) -/

/-- `chunkIndex === totalChunks - 1` with JS number semantics (for
`totalChunks = 0` the right-hand side is `-1`, not `0`). -/
def isLastIndex (chunkIndex totalChunks : Nat) : Bool :=
  decide ((chunkIndex : Int) = (totalChunks : Int) - 1)

/-- `Math.round((a / b) * 100)` on naturals; for `b = 0` JS would give
`Infinity` (that case is never reached by the claims below). -/
def jsRoundPct (a b : Nat) : Nat := (200 * a + b) / (2 * b)

/-- The file object handed to the worker: name, MIME type and content. -/
structure FileObj where
  name : String
  ftype : String
  bytes : Bytes
deriving DecidableEq

def FileObj.size (f : FileObj) : Nat := f.bytes.length

/-- The messages posted by `readFileChunks` (lines 107-168) for an
uninterrupted run: per chunk index a `send-chunk` and a `progress-update`,
then one `transfer-complete`.  The `onload` body runs once even for an empty
file (the first `readNextChunk` always happens), hence `max totalChunks 1`. -/
def readFileChunksMsgs (transferId : String) (file : Bytes)
    (receiverId : String) (totalChunks : Nat) : List WorkerOut :=
  ((List.range (max totalChunks 1)).map (fun chunkIndex =>
    [WorkerOut.sendChunk transferId chunkIndex (readChunk file chunkIndex)
      (isLastIndex chunkIndex totalChunks) receiverId,
     WorkerOut.progressUpdate transferId
      (jsRoundPct (chunkIndex + 1) totalChunks)])).flatten
  ++ [WorkerOut.transferComplete transferId true]

/-- Worker `processFile` (lines 70-104): builds the transfer id and metadata,
posts `send-metadata`, then the `readFileChunks` stream. -/
def workerProcessFile (fileId : String) (now : Nat) (file : FileObj)
    (receiverId : String) : List WorkerOut :=
  let transferId := fileId ++ "-" ++ toString now
  let totalChunks := totalChunksOf file.size
  WorkerOut.sendMetadata transferId
    ⟨transferId, fileId, file.name, file.ftype, file.size, totalChunks, now⟩
    receiverId
  :: readFileChunksMsgs transferId file.bytes receiverId totalChunks

/-- Worker `processChunk` (lines 171-190): posts `chunk-received`, and a
`receive-complete` whenever the chunk's index is `totalChunks - 1`
(regardless of which other chunks arrived). -/
def workerProcessChunk (transferId : String) (chunk : Bytes)
    (chunkIndex : Nat) (meta : ChunkMeta) : List WorkerOut :=
  [WorkerOut.chunkReceived transferId chunkIndex meta.totalChunks
    (jsRoundPct (chunkIndex + 1) meta.totalChunks)]
  ++ (if isLastIndex chunkIndex meta.totalChunks
      then [WorkerOut.receiveComplete transferId meta]
      else [])

/-- `this.transferWorker.onmessage` (lines 211-255): dispatch of worker
messages on the main thread. -/
def handleWorkerMessage (connected : Bool) (st : Manager) (w : WorkerOut) :
    Manager × List Effect :=
  match w with
  | WorkerOut.sendMetadata transferId metadata receiverId =>
    sendFileMetadata connected st transferId metadata receiverId
  | WorkerOut.sendChunk transferId chunkIndex chunk isLast receiverId =>
    sendFileChunk connected st transferId chunkIndex chunk isLast receiverId
  | WorkerOut.progressUpdate transferId p =>
    (st, [Effect.emitEvent (FTEvent.progress transferId p)])
  | WorkerOut.transferComplete transferId success =>
    (st, [Effect.emitEvent (FTEvent.complete transferId success)])
  | WorkerOut.transferError transferId e =>
    (st, [Effect.emitEvent (FTEvent.error transferId e)])
  | WorkerOut.chunkReceived transferId _ _ p =>
    (st, [Effect.emitEvent (FTEvent.receiveProgress transferId p)])
  | WorkerOut.receiveComplete transferId meta =>
    completeFileReceive st transferId meta
  | WorkerOut.transferAborted transferId =>
    (st, [Effect.emitEvent (FTEvent.aborted transferId)])

/-- Process a stream of worker messages in order, accumulating effects. -/
def runWorkerMsgs (connected : Bool) (st : Manager) (ws : List WorkerOut) :
    Manager × List Effect :=
  ws.foldl (fun acc w =>
    let r := handleWorkerMessage connected acc.1 w
    (r.1, acc.2 ++ r.2)) (st, [])

/-- Expand the `process-chunk` commands a handler posted to the worker into
the worker's reply messages (`processChunk` reads no worker state). -/
def pendingWorkerChunkMsgs (effs : List Effect) : List WorkerOut :=
  (effs.map (fun e =>
    match e with
    | Effect.workerPost (WorkerCmd.processChunk tid c i meta) =>
      workerProcessChunk tid c i meta
    | _ => [])).flatten

/-- Delivery of one chunk to the receiver including the asynchronous worker
round trip: `handleIncomingFileChunk`, then the worker's `process-chunk`
replies handled by `onmessage`. -/
def deliverChunkFull (connected : Bool) (st : Manager) (transferId : String)
    (chunkIndex : Nat) (chunk : Bytes) (meta : ChunkMeta) :
    Manager × List Effect :=
  let r1 := handleIncomingFileChunk connected st transferId chunkIndex chunk meta
  let r2 := runWorkerMsgs connected r1.1 (pendingWorkerChunkMsgs r1.2)
  (r2.1, r1.2 ++ r2.2)

/-- Receiver state after the first `k` chunks of `file` arrive in ascending
index order through `handleIncomingFileChunk` (state only). -/
def receiveChunksInOrder (connected : Bool) (st : Manager)
    (transferId : String) (file : Bytes) (meta : ChunkMeta) (k : Nat) :
    Manager :=
  (List.range k).foldl
    (fun s i => (handleIncomingFileChunk connected s transferId i
      (readChunk file i) meta).1) st

/-! ## The backend worker pool (threading.js `WorkerPool`; thread-pool.js
`ThreadPool.processQueue` is line-for-line the same logic)

`activeWorkers` is a JS number and is modelled as `Int`: nothing in the code
keeps it non-negative.  Tasks are identified by numbers; `spawnOrder`
records dispatch order, `resolvedTasks`/`rejectedTasks` record each
`task.resolve`/`task.reject` call.  Node's `worker_threads` semantics: an
`'exit'` event always follows once a worker stops, with a non-zero code
after an `'error'` and code 1 after `terminate()`. -/

structure WorkerPool where
  maxWorkers : Nat
  taskQueue : List Nat
  activeWorkers : Int
  spawnOrder : List Nat
  resolvedTasks : List Nat
  rejectedTasks : List Nat
deriving DecidableEq

def WorkerPool.create (maxWorkers : Nat) : WorkerPool :=
  ⟨maxWorkers, [], 0, [], [], []⟩

/-- `processQueue` (threading.js lines 27-37 head): return if the queue is
empty or `activeWorkers >= maxWorkers`; otherwise shift the next task,
increment `activeWorkers` and spawn its worker. -/
def WorkerPool.processQueue (p : WorkerPool) : WorkerPool :=
  match p.taskQueue with
  | [] => p
  | t :: rest =>
    if (p.maxWorkers : Int) ≤ p.activeWorkers then p
    else { p with
      taskQueue := rest
      activeWorkers := p.activeWorkers + 1
      spawnOrder := p.spawnOrder ++ [t] }

/-- `runTask` (lines 18-24): push the task and process the queue. -/
def WorkerPool.runTask (p : WorkerPool) (t : Nat) : WorkerPool :=
  WorkerPool.processQueue { p with taskQueue := p.taskQueue ++ [t] }

/-- `worker.on('message', ...)` (lines 39-44): resolve, decrement,
terminate the worker, process the queue. -/
def WorkerPool.onWorkerMessage (p : WorkerPool) (t : Nat) : WorkerPool :=
  WorkerPool.processQueue { p with
    resolvedTasks := p.resolvedTasks ++ [t]
    activeWorkers := p.activeWorkers - 1 }

/-- `worker.on('error', ...)` (lines 46-51): reject, decrement, terminate,
process the queue. -/
def WorkerPool.onWorkerError (p : WorkerPool) (t : Nat) : WorkerPool :=
  WorkerPool.processQueue { p with
    rejectedTasks := p.rejectedTasks ++ [t]
    activeWorkers := p.activeWorkers - 1 }

/-- `worker.on('exit', ...)` (lines 53-59): on a non-zero exit code, reject
and decrement again, then process the queue. -/
def WorkerPool.onWorkerExit (p : WorkerPool) (t : Nat) (code : Nat) : WorkerPool :=
  if code ≠ 0 then
    WorkerPool.processQueue { p with
      rejectedTasks := p.rejectedTasks ++ [t]
      activeWorkers := p.activeWorkers - 1 }
  else p

/-- Environment events driving the pool. -/
inductive PoolEvent where
  | submit (t : Nat)
  | messageEvt (t : Nat)
  | errorEvt (t : Nat)
  | exitEvt (t : Nat) (code : Nat)
deriving DecidableEq

def WorkerPool.step (p : WorkerPool) : PoolEvent → WorkerPool
  | PoolEvent.submit t => p.runTask t
  | PoolEvent.messageEvt t => p.onWorkerMessage t
  | PoolEvent.errorEvt t => p.onWorkerError t
  | PoolEvent.exitEvt t code => p.onWorkerExit t code

def runPool (maxWorkers : Nat) (evs : List PoolEvent) : WorkerPool :=
  evs.foldl WorkerPool.step (WorkerPool.create maxWorkers)

/-! # Verification -/

/-- The receiving record after the first `k` chunks of `file` arrived in
ascending index order: `freshReceivingRecord` with `receivedChunks` holding
`(i, readChunk file i)` for `i < k` and the given status. -/
def recAt (md : Metadata) (senderId : String) (file : Bytes) (k : Nat)
    (stat : Status) : TransferRecord := {
  transferId := md.transferId
  fileId := md.fileId
  fileName := md.fileName
  fileType := md.fileType
  fileSize := md.fileSize
  totalChunks := md.totalChunks
  timestamp := md.timestamp
  status := stat
  senderId := senderId
  receivedChunks := ⟨(List.range k).map (fun i => (i, readChunk file i))⟩
  missingChunks := JSSet.empty }

/-- After receiving metadata and then the first `k` chunks of `file` in
ascending index order, the record holds exactly the pairs
`(i, readChunk file i)` for `i < k` in insertion order, and is complete
exactly when `k` reached a positive `totalChunks`. -/
theorem receive_inOrder_invariant (connected : Bool) (md : Metadata)
    (senderId : String) (file : Bytes) (meta : ChunkMeta) :
    ∀ k, k ≤ md.totalChunks →
      (receiveChunksInOrder connected
          (handleIncomingFileMetadata connected Manager.empty md senderId).1
          md.transferId file meta k).transfers.get md.transferId
        = some (recAt md senderId file k
            (if k = md.totalChunks ∧ 0 < md.totalChunks
             then Status.complete else Status.receiving)) := by
  intro k
  induction k with
  | zero =>
    intro _
    have hif : (if ((0 : Nat) = md.totalChunks ∧ 0 < md.totalChunks)
        then Status.complete else Status.receiving) = Status.receiving := by
      rw [if_neg]
      omega
    rw [hif]
    simp only [receiveChunksInOrder, List.range_zero, List.foldl_nil,
      handleIncomingFileMetadata]
    rw [JSMap.get_set_self]
    rfl
  | succ k ih =>
    intro hk1
    have hk : k < md.totalChunks := Nat.lt_of_succ_le hk1
    have ihk := ih (Nat.le_of_lt hk)
    have hifk : (if (k = md.totalChunks ∧ 0 < md.totalChunks)
        then Status.complete else Status.receiving) = Status.receiving := by
      rw [if_neg]
      omega
    rw [hifk] at ihk
    have hstep : receiveChunksInOrder connected
        (handleIncomingFileMetadata connected Manager.empty md senderId).1
        md.transferId file meta (k + 1)
        = (handleIncomingFileChunk connected
            (receiveChunksInOrder connected
              (handleIncomingFileMetadata connected Manager.empty md senderId).1
              md.transferId file meta k)
            md.transferId k (readChunk file k) meta).1 := by
      unfold receiveChunksInOrder
      rw [List.range_succ, List.foldl_append, List.foldl_cons, List.foldl_nil]
    rw [hstep]
    have hkeys : ∀ p ∈ (List.range k).map (fun i => (i, readChunk file i)),
        p.1 ≠ k := by
      intro p hp
      rcases List.mem_map.mp hp with ⟨i, hi, rfl⟩
      have : i < k := List.mem_range.mp hi
      omega
    have hset : (JSMap.mk ((List.range k).map
          (fun i => (i, readChunk file i)))).set k (readChunk file k)
        = ⟨(List.range (k + 1)).map (fun i => (i, readChunk file i))⟩ := by
      unfold JSMap.set
      rw [setEntries_append_of_not_mem _ _ _ hkeys]
      rw [List.range_succ, List.map_append]
      rfl
    have hsize : ((List.range (k + 1)).map
        (fun i => (i, readChunk file i))).length = k + 1 := by
      rw [List.length_map, List.length_range]
    simp only [handleIncomingFileChunk, ihk]
    simp only [recAt]
    rw [hset]
    simp only [ne_eq, not_true_eq_false, if_false, JSMap.size, hsize,
      reduceCtorEq, ite_false]
    by_cases hfin : k + 1 = md.totalChunks
    · rw [if_pos hfin]
      simp only [assembleFile]
      rw [JSMap.get_set_self]
      simp only [ne_eq, not_true_eq_false, if_false, reduceCtorEq, ite_false]
      rw [JSMap.get_set_self]
      have hiff : (if (k + 1 = md.totalChunks ∧ 0 < md.totalChunks)
          then Status.complete else Status.receiving) = Status.complete := by
        rw [if_pos]
        omega
      rw [hiff]
    · rw [if_neg hfin]
      rw [JSMap.get_set_self]
      have hiff : (if (k + 1 = md.totalChunks ∧ 0 < md.totalChunks)
          then Status.complete else Status.receiving) = Status.receiving := by
        rw [if_neg]
        omega
      rw [hiff]

/-- C1: with `ChunkSize = 65536` the sender computes
`totalChunks = ceil(S / C)`, chunk `i` covers bytes
`[i*C, min((i+1)*C, S))`, and concatenating the receiver's
`receivedChunks[0..totalChunks)` in ascending index order yields exactly the
original payload bytes. -/
theorem c1_chunk_roundTrip (file : Bytes)
    (fileId fileName fileType senderId : String) (timestamp : Nat) :
    totalChunksOf file.length = (file.length + CHUNK_SIZE - 1) / CHUNK_SIZE ∧
    (∀ i, readChunk file i
        = fileSlice file (i * CHUNK_SIZE) (min ((i + 1) * CHUNK_SIZE) file.length)) ∧
    ((List.range (totalChunksOf file.length)).map (readChunk file)).flatten = file ∧
    (∀ transferId : String,
      ((receiveChunksInOrder true
          (handleIncomingFileMetadata true Manager.empty
            ⟨transferId, fileId, fileName, fileType, file.length,
              totalChunksOf file.length, timestamp⟩ senderId).1
          transferId file ⟨fileName, totalChunksOf file.length⟩
          (totalChunksOf file.length)).transfers.get transferId).map
        (fun r => (r.receivedChunks.entries.map (fun p => p.2)).flatten)
        = some file) := by
  refine ⟨rfl, ?_, flatten_readChunks file, ?_⟩
  · intro i
    unfold readChunk
    rw [show (i + 1) * CHUNK_SIZE = i * CHUNK_SIZE + CHUNK_SIZE from
      Nat.succ_mul i CHUNK_SIZE]
  · intro transferId
    have hinv := receive_inOrder_invariant true
      ⟨transferId, fileId, fileName, fileType, file.length,
        totalChunksOf file.length, timestamp⟩ senderId file
      ⟨fileName, totalChunksOf file.length⟩ (totalChunksOf file.length)
      (Nat.le_refl _)
    rw [hinv]
    simp only [Option.map, recAt, List.map_map]
    congr 1
    simpa using flatten_readChunks file

/-! ## C2: sender-side completion -/

/-- One-chunk metadata fixture. -/
def mdOneChunk : Metadata := ⟨"t", "f", "a.bin", "bin", 1, 1, 0⟩

/-- Two-chunk metadata fixture. -/
def mdTwoChunks : Metadata := ⟨"t", "f", "a.bin", "bin", 70000, 2, 0⟩

/-- Sender state after `sendFileMetadata` of `mdOneChunk`. -/
def sendState1 : Manager := (sendFileMetadata true Manager.empty "t" mdOneChunk "r").1

/-- The record `sendState1` holds under `"t"`. -/
def sendRec1 : TransferRecord := {
  transferId := "t", fileId := "f", fileName := "a.bin", fileType := "bin"
  fileSize := 1, totalChunks := 1, timestamp := 0
  status := Status.sending, receiverId := "r" }

/-- Sender state after `sendFileMetadata` of `mdTwoChunks`. -/
def sendState2 : Manager := (sendFileMetadata true Manager.empty "t" mdTwoChunks "r").1

/-- C2 fails on the code: (a) the worker pipeline for a one-chunk file posts
`transfer-complete` after merely dispatching the chunk, so the main thread
emits a success `complete` event although chunk 0 was never acknowledged
(the record still says `sending`); (b) acknowledgements for the garbage
indices 7 and 9 drive a two-chunk transfer to status `complete` and a
`complete` event although chunk 0 is not in `acknowledgedChunks`. -/
theorem c2_counterexample :
    (Effect.emitEvent (FTEvent.complete "f-0" true)
        ∈ (runWorkerMsgs true Manager.empty
            (workerProcessFile "f" 0 ⟨"a.bin", "bin", [7]⟩ "peer")).2
      ∧ ((runWorkerMsgs true Manager.empty
            (workerProcessFile "f" 0 ⟨"a.bin", "bin", [7]⟩ "peer")).1.transfers.get
          "f-0").map (fun r => r.acknowledgedChunks.size) = some 0
      ∧ ((runWorkerMsgs true Manager.empty
            (workerProcessFile "f" 0 ⟨"a.bin", "bin", [7]⟩ "peer")).1.transfers.get
          "f-0").map (fun r => r.status) = some Status.sending)
    ∧ (((handleChunkAcknowledgment
          (handleChunkAcknowledgment sendState2 "t" 7 "received").1
          "t" 9 "received").1.transfers.get "t").map (fun r => r.status)
        = some Status.complete
      ∧ Effect.emitEvent (FTEvent.complete "t" true)
          ∈ (handleChunkAcknowledgment
              (handleChunkAcknowledgment sendState2 "t" 7 "received").1
              "t" 9 "received").2
      ∧ (((handleChunkAcknowledgment
            (handleChunkAcknowledgment sendState2 "t" 7 "received").1
            "t" 9 "received").1.transfers.get "t").map
          (fun r => r.acknowledgedChunks.has 0)) = some false) := by
  decide

/-- C2 amended: processing an acknowledgement on a `'sending'` record sets
the record's status to `'complete'` and emits the success `complete` event
exactly when the size of `acknowledgedChunks` after adding the acknowledged
index equals `totalChunks` (set size only — membership of each index of
`[0, totalChunks)` is not checked; and the worker dispatch path emits its
own `complete` event independently of acknowledgements, cf. the
counterexample). -/
theorem c2_sender_complete_iff (st : Manager) (transferId : String)
    (chunkIndex : Nat) (t : TransferRecord)
    (hget : st.transfers.get transferId = some t)
    (hstat : t.status = Status.sending) :
    ((((handleChunkAcknowledgment st transferId chunkIndex "received").1.transfers.get
          transferId).map (fun r => r.status) = some Status.complete)
        ↔ (t.acknowledgedChunks.add chunkIndex).size = t.totalChunks)
    ∧ ((Effect.emitEvent (FTEvent.complete transferId true)
          ∈ (handleChunkAcknowledgment st transferId chunkIndex "received").2)
        ↔ (t.acknowledgedChunks.add chunkIndex).size = t.totalChunks) := by
  simp only [handleChunkAcknowledgment, hget, hstat]
  rcases hretry : t.retries.get chunkIndex with _ | ri
  · simp only [hretry]
    by_cases hsz : (t.acknowledgedChunks.add chunkIndex).size = t.totalChunks
    · simp [hsz, JSMap.get_set_self]
    · simp [hsz, JSMap.get_set_self, hstat]
  · simp only [hretry]
    by_cases htm : ri.timeoutSet
    · simp only [htm, if_true]
      by_cases hsz : (t.acknowledgedChunks.add chunkIndex).size = t.totalChunks
      · simp [hsz, JSMap.get_set_self]
      · simp [hsz, JSMap.get_set_self, hstat]
    · simp only [htm, if_false]
      by_cases hsz : (t.acknowledgedChunks.add chunkIndex).size = t.totalChunks
      · simp [hsz, JSMap.get_set_self]
      · simp [hsz, JSMap.get_set_self, hstat]

/-- Witness for `c2_sender_complete_iff` at the one-chunk sender state. -/
theorem c2_sender_complete_iff_witness :
    ((((handleChunkAcknowledgment sendState1 "t" 0 "received").1.transfers.get
          "t").map (fun r => r.status) = some Status.complete)
        ↔ (sendRec1.acknowledgedChunks.add 0).size = sendRec1.totalChunks)
    ∧ ((Effect.emitEvent (FTEvent.complete "t" true)
          ∈ (handleChunkAcknowledgment sendState1 "t" 0 "received").2)
        ↔ (sendRec1.acknowledgedChunks.add 0).size = sendRec1.totalChunks) :=
  c2_sender_complete_iff sendState1 "t" 0 sendRec1 (by decide) (by decide)

/-! ## C3: receiver-side completion -/

/-- Receiver state after `handleIncomingFileMetadata` of `mdTwoChunks`. -/
def recvState2 : Manager :=
  (handleIncomingFileMetadata true Manager.empty mdTwoChunks "s").1

/-- The record `recvState2` holds under `"t"`. -/
def recvRec2 : TransferRecord := freshReceivingRecord mdTwoChunks "s"

/-- C3 fails on the code: for a two-chunk transfer, delivering only the
chunk with index `1 = totalChunks - 1` (chunk 0 still missing) drives the
record to status `complete` and emits a `file-received` event, through the
worker `receive-complete` path (`processChunk` lines 183-189,
`completeFileReceive` lines 562-574). -/
theorem c3_counterexample :
    (((deliverChunkFull true recvState2 "t" 1 [9] ⟨"a.bin", 2⟩).1.transfers.get
        "t").map (fun r => r.status) = some Status.complete)
    ∧ (Effect.emitEvent (FTEvent.fileReceived "t" (some "a.bin") none none)
        ∈ (deliverChunkFull true recvState2 "t" 1 [9] ⟨"a.bin", 2⟩).2)
    ∧ (((deliverChunkFull true recvState2 "t" 1 [9] ⟨"a.bin", 2⟩).1.transfers.get
        "t").map (fun r => r.receivedChunks.size) = some 1) := by
  decide

/-- C3 amended: on a `'receiving'` record, `handleIncomingFileChunk` sets
status `'complete'` and emits `file-received` (via `assembleFile`) exactly
when the stored-chunk count after insertion equals `totalChunks`; however
the worker `receive-complete` path completes the transfer whenever the
received chunk's index equals `totalChunks - 1`, even with chunks missing
(e.g. a two-chunk transfer completes on receiving only chunk 1). -/
theorem c3_receiver_complete_iff (connected : Bool) (st : Manager)
    (transferId : String) (chunkIndex : Nat) (chunk : Bytes)
    (meta : ChunkMeta) (t : TransferRecord)
    (hget : st.transfers.get transferId = some t)
    (hstat : t.status = Status.receiving) :
    ((((handleIncomingFileChunk connected st transferId chunkIndex chunk
            meta).1.transfers.get transferId).map (fun r => r.status)
          = some Status.complete)
        ↔ (t.receivedChunks.set chunkIndex chunk).size = t.totalChunks)
    ∧ ((Effect.emitEvent (FTEvent.fileReceived transferId (some t.fileName)
            (some t.fileType) (some t.fileSize))
          ∈ (handleIncomingFileChunk connected st transferId chunkIndex chunk
              meta).2)
        ↔ (t.receivedChunks.set chunkIndex chunk).size = t.totalChunks)
    ∧ (((deliverChunkFull true recvState2 "t" 1 [9] ⟨"a.bin", 2⟩).1.transfers.get
        "t").map (fun r => r.status) = some Status.complete) := by
  refine ⟨?_, ?_, by decide⟩
  · simp only [handleIncomingFileChunk, hget, hstat]
    by_cases hsz : (t.receivedChunks.set chunkIndex chunk).size = t.totalChunks
    · simp only [hsz]
      simp [assembleFile, JSMap.get_set_self, hstat]
    · simp only [hsz]
      simp [JSMap.get_set_self, hstat, hsz]
  · simp only [handleIncomingFileChunk, hget, hstat]
    by_cases hsz : (t.receivedChunks.set chunkIndex chunk).size = t.totalChunks
    · simp only [hsz]
      simp only [assembleFile]
      rw [JSMap.get_set_self]
      simp [hstat, sendTcpMessage]
    · simp only [hsz]
      simp [hsz, sendTcpMessage]
      cases connected <;> simp

/-- Witness for `c3_receiver_complete_iff` at the two-chunk receiver state. -/
theorem c3_receiver_complete_iff_witness :
    ((((handleIncomingFileChunk true recvState2 "t" 0 [5]
            ⟨"a.bin", 2⟩).1.transfers.get "t").map (fun r => r.status)
          = some Status.complete)
        ↔ (recvRec2.receivedChunks.set 0 [5]).size = recvRec2.totalChunks)
    ∧ ((Effect.emitEvent (FTEvent.fileReceived "t" (some recvRec2.fileName)
            (some recvRec2.fileType) (some recvRec2.fileSize))
          ∈ (handleIncomingFileChunk true recvState2 "t" 0 [5]
              ⟨"a.bin", 2⟩).2)
        ↔ (recvRec2.receivedChunks.set 0 [5]).size = recvRec2.totalChunks)
    ∧ (((deliverChunkFull true recvState2 "t" 1 [9] ⟨"a.bin", 2⟩).1.transfers.get
        "t").map (fun r => r.status) = some Status.complete) :=
  c3_receiver_complete_iff true recvState2 "t" 0 [5] ⟨"a.bin", 2⟩ recvRec2
    (by decide) (by decide)

/-! ## C4: `acknowledgedChunks ⊆ sentChunks` -/

theorem JSSet.subsetOf_iff {κ : Type} [DecidableEq κ] (a b : JSSet κ) :
    a.subsetOf b = true ↔ ∀ x ∈ a.elems, x ∈ b.elems := by
  simp [JSSet.subsetOf]

theorem JSSet.subsetOf_add_right {κ : Type} [DecidableEq κ] (a b : JSSet κ)
    (x : κ) (h : a.subsetOf b = true) : a.subsetOf (b.add x) = true := by
  rw [JSSet.subsetOf_iff] at h ⊢
  intro y hy
  unfold JSSet.add
  by_cases hx : x ∈ b.elems
  · simpa [hx] using h y hy
  · simp only [hx, if_false]
    exact List.mem_append_left _ (h y hy)

theorem JSSet.subsetOf_add_left_of_mem {κ : Type} [DecidableEq κ]
    (a b : JSSet κ) (x : κ) (h : a.subsetOf b = true) (hx : b.has x = true) :
    (a.add x).subsetOf b = true := by
  rw [JSSet.subsetOf_iff] at h ⊢
  have hxb : x ∈ b.elems := by simpa [JSSet.has] using hx
  intro y hy
  unfold JSSet.add at hy
  by_cases hmem : x ∈ a.elems
  · simp only [hmem, if_true] at hy
    exact h y hy
  · simp only [hmem, if_false] at hy
    rcases List.mem_append.mp hy with hya | hyx
    · exact h y hya
    · simp only [List.mem_singleton] at hyx
      subst hyx
      exact hxb

/-- C4 fails on the code: acknowledging the never-dispatched index 5 on a
fresh sending record adds 5 to `acknowledgedChunks` (breaking
`acknowledgedChunks ⊆ sentChunks`, since `sentChunks` is empty). -/
theorem c4_counterexample :
    (((handleChunkAcknowledgment sendState1 "t" 5 "received").1.transfers.get
      "t").map (fun r => r.acknowledgedChunks.has 5) = some true)
    ∧ (((handleChunkAcknowledgment sendState1 "t" 5 "received").1.transfers.get
      "t").map (fun r => r.acknowledgedChunks.subsetOf r.sentChunks)
        = some false) := by
  decide

/-- C4 amended: `handleChunkAcknowledgment` adds the acknowledged index to
`acknowledgedChunks` unconditionally, so `acknowledgedChunks ⊆ sentChunks`
is an invariant only of runs whose acknowledgements all concern dispatched
indices: it is preserved by `sendFileChunk`, by a retry-timer fire, and by
acknowledgements whose index is in `sentChunks`. -/
theorem c4_subset_preservation :
    (∀ (connected : Bool) (st : Manager) (transferId : String)
        (chunkIndex : Nat) (chunk : Bytes) (isLast : Bool)
        (receiverId : String) (t : TransferRecord),
      st.transfers.get transferId = some t →
      t.acknowledgedChunks.subsetOf t.sentChunks = true →
      (((sendFileChunk connected st transferId chunkIndex chunk isLast
          receiverId).1.transfers.get transferId).map
        (fun r => r.acknowledgedChunks.subsetOf r.sentChunks)) = some true)
    ∧ (∀ (connected : Bool) (st : Manager) (transferId : String)
        (chunkIndex : Nat) (receiverId : String) (t : TransferRecord),
      st.transfers.get transferId = some t →
      t.acknowledgedChunks.subsetOf t.sentChunks = true →
      (((fireRetryTimer connected st transferId chunkIndex
          receiverId).1.transfers.get transferId).map
        (fun r => r.acknowledgedChunks.subsetOf r.sentChunks)) = some true)
    ∧ (∀ (st : Manager) (transferId : String) (chunkIndex : Nat)
        (ackStatus : String) (t : TransferRecord),
      st.transfers.get transferId = some t →
      t.acknowledgedChunks.subsetOf t.sentChunks = true →
      t.sentChunks.has chunkIndex = true →
      (((handleChunkAcknowledgment st transferId chunkIndex
          ackStatus).1.transfers.get transferId).map
        (fun r => r.acknowledgedChunks.subsetOf r.sentChunks)) = some true) := by
  refine ⟨?_, ?_, ?_⟩
  · intro connected st transferId chunkIndex chunk isLast receiverId t hget hsub
    simp only [sendFileChunk, hget]
    by_cases hstat : t.status = Status.sending
    · simp only [hstat, ne_eq, not_true_eq_false, if_false]
      rw [JSMap.get_set_self]
      simp only [Option.map_some']
      congr 1
      exact JSSet.subsetOf_add_right _ _ _ hsub
    · have hne : (t.status ≠ Status.sending) = True := by simp [hstat]
      simp [hne, hget, hsub]
  · intro connected st transferId chunkIndex receiverId t hget hsub
    simp only [fireRetryTimer, retryChunk, hget]
    rw [JSMap.get_set_self]
    by_cases hstat : t.status = Status.sending
    · simp only [hstat, ne_eq, not_true_eq_false, if_false]
      rcases hr : t.retries.get chunkIndex with _ | ri
      · simp only [hr]
        rw [JSMap.get_set_self]
        simp [hsub]
      · simp only [hr]
        by_cases hack : t.acknowledgedChunks.has chunkIndex
        · simp only [hack, if_true]
          rw [JSMap.get_set_self]
          simp [hsub]
        · simp only [hack, Bool.false_eq_true, if_false]
          by_cases hcount : ri.count + 1 > MAX_RETRY_COUNT
          · simp only [hcount, if_true]
            rcases hc : t.chunks with _ | cm
            · simp only [hc]
              rw [JSMap.get_set_self]
              simp [hsub]
            · simp only [hc]
              rw [JSMap.get_set_self]
              simp [hsub]
          · simp only [hcount, if_false]
            rcases hc : t.chunks with _ | cm
            · simp only [hc]
              rw [JSMap.get_set_self]
              simp [hsub]
            · simp only [hc]
              rw [JSMap.get_set_self]
              simp [hsub]
    · have hne : (t.status ≠ Status.sending) = True := by simp [hstat]
      simp [hne, JSMap.get_set_self, hsub]
  · intro st transferId chunkIndex ackStatus t hget hsub hmem
    simp only [handleChunkAcknowledgment, hget]
    by_cases hstat : t.status = Status.sending
    · simp only [hstat, ne_eq, not_true_eq_false, if_false]
      by_cases hrecv : ackStatus = "received"
      · simp only [hrecv, ne_eq, not_true_eq_false, if_false]
        have hsub2 := JSSet.subsetOf_add_left_of_mem _ _ _ hsub hmem
        rcases hr : t.retries.get chunkIndex with _ | ri
        · simp only [hr]
          by_cases hsz : (t.acknowledgedChunks.add chunkIndex).size = t.totalChunks
          · simp only [hsz, if_true]
            rw [JSMap.get_set_self]
            simp [hsub2]
          · simp only [hsz, if_false]
            rw [JSMap.get_set_self]
            simp [hsub2]
        · simp only [hr]
          by_cases htm : ri.timeoutSet
          · simp only [htm, if_true]
            by_cases hsz : (t.acknowledgedChunks.add chunkIndex).size = t.totalChunks
            · simp only [hsz, if_true]
              rw [JSMap.get_set_self]
              simp [hsub2]
            · simp only [hsz, if_false]
              rw [JSMap.get_set_self]
              simp [hsub2]
          · simp only [htm, Bool.false_eq_true, if_false]
            by_cases hsz : (t.acknowledgedChunks.add chunkIndex).size = t.totalChunks
            · simp only [hsz, if_true]
              rw [JSMap.get_set_self]
              simp [hsub2]
            · simp only [hsz, if_false]
              rw [JSMap.get_set_self]
              simp [hsub2]
      · have hne : (ackStatus ≠ "received") = True := by simp [hrecv]
        simp [hne, hget, hsub]
    · have hne : (t.status ≠ Status.sending) = True := by simp [hstat]
      simp [hne, hget, hsub]

/-- Witness for `c4_subset_preservation` at the one-chunk sender state. -/
theorem c4_subset_preservation_witness :
    ((((sendFileChunk true sendState1 "t" 0 [7] true "r").1.transfers.get
        "t").map (fun r => r.acknowledgedChunks.subsetOf r.sentChunks))
      = some true)
    ∧ ((((fireRetryTimer true sendState1 "t" 0 "r").1.transfers.get
        "t").map (fun r => r.acknowledgedChunks.subsetOf r.sentChunks))
      = some true)
    ∧ ((((handleChunkAcknowledgment
          (sendFileChunk true sendState1 "t" 0 [7] true "r").1 "t" 0
          "received").1.transfers.get "t").map
        (fun r => r.acknowledgedChunks.subsetOf r.sentChunks)) = some true) :=
  ⟨c4_subset_preservation.1 true sendState1 "t" 0 [7] true "r" sendRec1
      (by decide) (by decide),
   c4_subset_preservation.2.1 true sendState1 "t" 0 "r" sendRec1
      (by decide) (by decide),
   c4_subset_preservation.2.2 (sendFileChunk true sendState1 "t" 0 [7] true "r").1
      "t" 0 "received"
      { sendRec1 with
        sentChunks := ⟨[0]⟩
        retries := ⟨[(0, ⟨0, true⟩)]⟩
        pendingTimers := ⟨[0]⟩ }
      (by decide) (by decide) (by decide)⟩

/-! ## C5: retry and reliable fallback -/

/-- Three-chunk metadata fixture (a 150000-byte file). -/
def mdThreeChunks : Metadata := ⟨"t", "f", "a.bin", "bin", 150000, 3, 0⟩

/-- Sender state after `sendFileMetadata` of `mdThreeChunks`. -/
def sendState3 : Manager :=
  (sendFileMetadata true Manager.empty "t" mdThreeChunks "r").1

/-- `sendState3` after dispatching chunk index 1 (timer armed, count 0). -/
def sendState3c1 : Manager :=
  (sendFileChunk true sendState3 "t" 1 [1, 2, 3] false "r").1

/-- C5 concerns a code bug: when the retry timer for the unacknowledged
chunk 1 of a three-chunk transfer fires for the first time, `retryChunk`
increments the attempt counter and then reads
`transfer.chunks[chunkIndex]` — but no code path ever stores a `chunks`
property on the record, so the access throws a `TypeError` before anything
is resent, and no timer is re-armed: the chunk is never resent on either
channel (the claimed 3 unreliable resends plus 1 reliable resend never
happen). -/
theorem c5_retry_throws :
    ((fireRetryTimer true sendState3c1 "t" 1 "r").2.2
      = some "TypeError: transfer.chunks is undefined")
    ∧ ((fireRetryTimer true sendState3c1 "t" 1 "r").2.1 = [])
    ∧ (((fireRetryTimer true sendState3c1 "t" 1 "r").1.transfers.get "t").map
        (fun r => r.retries.get 1) = some (some ⟨1, true⟩))
    ∧ (((fireRetryTimer true sendState3c1 "t" 1 "r").1.transfers.get "t").map
        (fun r => r.pendingTimers.has 1) = some false) := by
  decide

/-! ## C6 and C7: terminal events and cancellation -/

/-- A manager holding a single record in status `'complete'`. -/
def completeState1 : Manager :=
  ⟨JSMap.empty.set "t" { sendRec1 with status := Status.complete }⟩

/-- C6 fails on the code: calling `cancelTransfer` twice on the same
still-present record emits two `cancelled` events for the same transferId
(the status guard only controls the peer notification, not the emission). -/
theorem c6_counterexample :
    ((cancelTransfer true sendState1 "t").2
      ++ (cancelTransfer true (cancelTransfer true sendState1 "t").1 "t").2).count
      (Effect.emitEvent (FTEvent.cancelled "t")) = 2 := by
  decide

/-- C6 amended: terminal events are not unique per transfer — every
`cancelTransfer` call on a still-present record emits one `cancelled` event
(so repeated cancellations emit repeatedly; and per the counterexample of
C2 the worker path and the acknowledgement path can each emit `complete`);
only the acknowledgement-driven `complete` is emitted at most once per
record, because an acknowledgement arriving at a record whose status is no
longer `'sending'` is ignored entirely. -/
theorem c6_terminal_event_behaviour :
    (∀ (st : Manager) (transferId : String) (chunkIndex : Nat)
        (ackStatus : String) (t : TransferRecord),
      st.transfers.get transferId = some t →
      t.status ≠ Status.sending →
      handleChunkAcknowledgment st transferId chunkIndex ackStatus = (st, []))
    ∧ (∀ (connected : Bool) (st : Manager) (transferId : String)
        (t : TransferRecord),
      st.transfers.get transferId = some t →
      (cancelTransfer connected st transferId).2.count
        (Effect.emitEvent (FTEvent.cancelled transferId)) = 1) := by
  constructor
  · intro st transferId chunkIndex ackStatus t hget hstat
    simp only [handleChunkAcknowledgment, hget]
    rw [if_pos hstat]
  · intro connected st transferId t hget
    simp only [cancelTransfer, hget]
    by_cases hs : t.status = Status.sending
    · simp only [hs, if_true]
      cases connected <;>
        simp [sendTcpMessage, List.count_append, List.count_cons, List.count_nil]
    · simp only [hs, if_false]
      by_cases hr : t.status = Status.receiving
      · simp only [hr, if_true]
        cases connected <;>
          simp [sendTcpMessage, List.count_append, List.count_cons, List.count_nil]
      · simp only [hr, if_false]
        simp [List.count_append, List.count_cons, List.count_nil]

/-- Witness for `c6_terminal_event_behaviour`: an acknowledgement on a
complete record is a no-op, and a cancellation on a live record emits one
`cancelled` event. -/
theorem c6_terminal_event_behaviour_witness :
    (handleChunkAcknowledgment completeState1 "t" 0 "received"
      = (completeState1, []))
    ∧ ((cancelTransfer true sendState1 "t").2.count
        (Effect.emitEvent (FTEvent.cancelled "t")) = 1) :=
  ⟨c6_terminal_event_behaviour.1 completeState1 "t" 0 "received"
      { sendRec1 with status := Status.complete } (by decide) (by decide),
   c6_terminal_event_behaviour.2 true sendState1 "t" sendRec1 (by decide)⟩

/-- C7 fails on the code: `cancelTransfer` on a record that is already in a
terminal status (`'complete'` here) is not a no-op: it overwrites the
status with `'cancelled'` and emits a (fresh) `cancelled` event. -/
theorem c7_counterexample :
    (Effect.emitEvent (FTEvent.cancelled "t")
        ∈ (cancelTransfer true completeState1 "t").2)
    ∧ (((cancelTransfer true completeState1 "t").1.transfers.get "t").map
        (fun r => r.status) = some Status.cancelled) := by
  decide

/-- C7 amended: a first `cancelTransfer` on an active sending transfer sends
exactly one cancellation message to the peer, clears all pending retry
timers, sets status `'cancelled'` and emits exactly one `cancelled` event;
but `cancelTransfer` is not idempotent: on a record already `'cancelled'`
or `'complete'` it again sets status `'cancelled'` and emits another
`cancelled` event (only a missing record — e.g. after the grace-period
removal — makes it a no-op). -/
theorem c7_cancel_behaviour :
    (∀ (st : Manager) (transferId : String) (t : TransferRecord),
      st.transfers.get transferId = some t →
      t.status = Status.sending →
      ((cancelTransfer true st transferId).2.count
          (Effect.tcpSend (Message.fileTransferCancel transferId t.receiverId)) = 1)
        ∧ (((cancelTransfer true st transferId).1.transfers.get transferId).map
            (fun r => r.pendingTimers.size) = some 0)
        ∧ ((cancelTransfer true st transferId).2.count
            (Effect.emitEvent (FTEvent.cancelled transferId)) = 1)
        ∧ (((cancelTransfer true st transferId).1.transfers.get transferId).map
            (fun r => r.status) = some Status.cancelled))
    ∧ (∀ (st : Manager) (transferId : String) (t : TransferRecord),
      st.transfers.get transferId = some t →
      (t.status = Status.cancelled ∨ t.status = Status.complete) →
      ((cancelTransfer true st transferId).2.count
          (Effect.emitEvent (FTEvent.cancelled transferId)) = 1)
        ∧ (((cancelTransfer true st transferId).1.transfers.get transferId).map
            (fun r => r.status) = some Status.cancelled))
    ∧ (∀ (connected : Bool) (st : Manager) (transferId : String),
      st.transfers.get transferId = none →
      cancelTransfer connected st transferId = (st, [])) := by
  refine ⟨?_, ?_, ?_⟩
  · intro st transferId t hget hstat
    simp only [cancelTransfer, hget, hstat, if_true]
    refine ⟨?_, ?_, ?_, ?_⟩
    · simp [sendTcpMessage, List.count_append, List.count_cons, List.count_nil]
    · rw [JSMap.get_set_self]
      simp [JSSet.size, JSSet.empty]
    · simp [sendTcpMessage, List.count_append, List.count_cons, List.count_nil]
    · rw [JSMap.get_set_self]
      simp
  · intro st transferId t hget hstat
    have hs : t.status ≠ Status.sending := by
      rcases hstat with h | h <;> simp [h]
    have hr : t.status ≠ Status.receiving := by
      rcases hstat with h | h <;> simp [h]
    simp only [cancelTransfer, hget, if_neg hs, if_neg hr]
    constructor
    · simp [List.count_append, List.count_cons, List.count_nil]
    · rw [JSMap.get_set_self]
      simp
  · intro connected st transferId hget
    simp only [cancelTransfer, hget]

/-- Witness for `c7_cancel_behaviour` at the fixture states. -/
theorem c7_cancel_behaviour_witness :
    (((cancelTransfer true sendState1 "t").2.count
        (Effect.tcpSend (Message.fileTransferCancel "t" sendRec1.receiverId)) = 1)
      ∧ (((cancelTransfer true sendState1 "t").1.transfers.get "t").map
          (fun r => r.pendingTimers.size) = some 0)
      ∧ ((cancelTransfer true sendState1 "t").2.count
          (Effect.emitEvent (FTEvent.cancelled "t")) = 1)
      ∧ (((cancelTransfer true sendState1 "t").1.transfers.get "t").map
          (fun r => r.status) = some Status.cancelled))
    ∧ (((cancelTransfer true completeState1 "t").2.count
        (Effect.emitEvent (FTEvent.cancelled "t")) = 1)
      ∧ (((cancelTransfer true completeState1 "t").1.transfers.get "t").map
          (fun r => r.status) = some Status.cancelled))
    ∧ (cancelTransfer true Manager.empty "missing" = (Manager.empty, [])) :=
  ⟨c7_cancel_behaviour.1 sendState1 "t" sendRec1 (by decide) (by decide),
   c7_cancel_behaviour.2.1 completeState1 "t"
      { sendRec1 with status := Status.complete } (by decide) (Or.inr (by decide)),
   c7_cancel_behaviour.2.2 true Manager.empty "missing" (by decide)⟩

/-! ## C8: worker-pool bookkeeping -/

/-- C8 concerns a code bug: a worker that raises fires `'error'` (reject +
decrement) and then, per Node `worker_threads`, `'exit'` with a non-zero
code (reject + decrement again), so a single submitted task is rejected
twice and `activeWorkers` ends at `-1 < 0`, violating
`0 ≤ activeWorkers ≤ maxWorkers`. -/
theorem c8_pool_double_decrement :
    ((runPool 4 [PoolEvent.submit 0, PoolEvent.errorEvt 0,
        PoolEvent.exitEvt 0 1]).activeWorkers = -1)
    ∧ ((runPool 4 [PoolEvent.submit 0, PoolEvent.errorEvt 0,
        PoolEvent.exitEvt 0 1]).rejectedTasks = [0, 0]) := by
  decide

/-! ## C9: unreachable peer -/

/-- C9 fails on the code: with no usable session (`connected = false`) the
metadata send returns `false` silently, yet the record is stored with
status `'sending'` and no effect (in particular no `error` event) is
produced. -/
theorem c9_counterexample :
    (((sendFileMetadata false Manager.empty "t" mdOneChunk "r").1.transfers.get
        "t").map (fun r => r.status) = some Status.sending)
    ∧ ((sendFileMetadata false Manager.empty "t" mdOneChunk "r").2 = []) := by
  decide

/-- C9 amended: when the peer cannot be reached (`NetworkManager` not
connected), `sendTcpMessage` fails silently returning `false`,
`sendFileMetadata` ignores that result and still stores the record with
status `'sending'`, and no error is surfaced: the transfer stays
`'sending'`, never `'error'`. -/
theorem c9_unreachable_is_silent (st : Manager) (transferId : String)
    (md : Metadata) (receiverId : String) :
    (sendTcpMessage false (Message.fileMetadata transferId md receiverId)
      = (false, []))
    ∧ (((sendFileMetadata false st transferId md receiverId).1.transfers.get
        transferId).map (fun r => r.status) = some Status.sending)
    ∧ ((sendFileMetadata false st transferId md receiverId).2 = []) := by
  refine ⟨rfl, ?_, rfl⟩
  simp only [sendFileMetadata]
  rw [JSMap.get_set_self]
  rfl

/-! ## C10: metadata replay resets the receiving record -/

/-- A receiver state for `mdTwoChunks` that already buffered chunk 0. -/
def bufferedState : Manager :=
  ⟨JSMap.empty.set "t" { recvRec2 with receivedChunks := ⟨[(0, [5])]⟩ }⟩

/-- C10: when file metadata arrives for the transferId of an existing active
receiving transfer, `handleIncomingFileMetadata` unconditionally replaces
the stored record by a fresh one with an empty `receivedChunks` map
(discarding all buffered chunks) and emits another `incoming-file` event. -/
theorem c10_metadata_replaces (connected : Bool) (st : Manager)
    (md : Metadata) (senderId : String) (t : TransferRecord)
    (hget : st.transfers.get md.transferId = some t)
    (hstat : t.status = Status.receiving) :
    ((handleIncomingFileMetadata connected st md senderId).1.transfers.get
        md.transferId = some (freshReceivingRecord md senderId))
    ∧ ((freshReceivingRecord md senderId).receivedChunks.size = 0)
    ∧ ((handleIncomingFileMetadata connected st md senderId).2.count
        (Effect.emitEvent (FTEvent.incomingFile md.transferId md.fileName
          md.fileSize md.fileType senderId)) = 1) := by
  refine ⟨?_, rfl, ?_⟩
  · simp only [handleIncomingFileMetadata]
    rw [JSMap.get_set_self]
  · simp only [handleIncomingFileMetadata]
    cases connected <;>
      simp [sendTcpMessage, List.count_append, List.count_cons, List.count_nil]

/-- Witness for `c10_metadata_replaces` at a receiver that already buffered
chunk 0 of a two-chunk transfer. -/
theorem c10_metadata_replaces_witness :
    ((handleIncomingFileMetadata true bufferedState mdTwoChunks "s").1.transfers.get
        mdTwoChunks.transferId = some (freshReceivingRecord mdTwoChunks "s"))
    ∧ ((freshReceivingRecord mdTwoChunks "s").receivedChunks.size = 0)
    ∧ ((handleIncomingFileMetadata true bufferedState mdTwoChunks "s").2.count
        (Effect.emitEvent (FTEvent.incomingFile mdTwoChunks.transferId
          mdTwoChunks.fileName mdTwoChunks.fileSize mdTwoChunks.fileType "s"))
        = 1) :=
  c10_metadata_replaces true bufferedState mdTwoChunks "s"
    { recvRec2 with receivedChunks := ⟨[(0, [5])]⟩ } (by decide) (by decide)

end ChatFT
